import Mathlib

/-!
Shallow embedding of `scripts/generate_invoices.py`: the price catalog, the
location → business directory, the aggregation of raw laundry records by
business, and the numeric content of the generated statement (PDF) and
filing sheet (Excel), together with the period resolution done in `main`.

Python integers are modelled by `Nat`/`Int`; nullable item counts by
`Option Nat`; the insertion-ordered dicts by association lists.  The tax
split `int(total / 1.1)` is a floating-point computation in the source, so
it is modelled bit-exactly: `1.1` is the IEEE-754 binary64 value
`2476979795053773 * 2^-51`, the integer operand is first rounded to a
double, the division result is rounded to nearest-even, and `int` truncates
(for non-negative arguments, floors).  The model covers the normal range of
binary64 (all totals below 2^1024), which contains every value the program
can produce.
-/

namespace Laundry

/-- The five item kinds of the price catalog (`PRICES` / `ITEM_NAMES`). -/
inductive Item where
  | blanket
  | mat
  | pillow_cover
  | towel
  | body_towel
deriving DecidableEq, Repr

/-- Declaration order of the catalog, shared by `PRICES` and `ITEM_NAMES`
(Python dicts iterate in insertion order). -/
def ITEM_LIST : List Item :=
  [Item.blanket, Item.mat, Item.pillow_cover, Item.towel, Item.body_towel]

/-- Unit prices (`PRICES` in the script). -/
def PRICES : Item → Nat
  | Item.blanket => 6500
  | Item.mat => 4500
  | Item.pillow_cover => 1500
  | Item.towel => 1000
  | Item.body_towel => 700

/-- Display names (`ITEM_NAMES` in the script). -/
def ITEM_NAMES : Item → String
  | Item.blanket => "이불"
  | Item.mat => "요"
  | Item.pillow_cover => "베개커버"
  | Item.towel => "수건"
  | Item.body_towel => "바디타월"

/-- The location → (registration id, business name, owner) directory
(`BUSINESS_MAP`), kept as the source's insertion-ordered key/value list. -/
def BUSINESS_MAP : List (String × String × String × String) :=
  [("서대문구 연희로4길 25-7", ("767-87-02214", "주식회사 콥스", "남택호")),
   ("동대문구 고산자로 508-3", ("767-87-02214", "주식회사 콥스", "남택호")),
   ("동대문구 왕산로 200, 1004호", ("767-87-02214", "주식회사 콥스", "남택호")),
   ("동대문구 장한로26나길 21", ("767-87-02214", "주식회사 콥스", "남택호")),
   ("광진구 능동로 165-1", ("767-87-02214", "주식회사 콥스", "남택호")),
   ("송파구 가락로28길 3-10", ("767-87-02214", "주식회사 콥스", "남택호")),
   ("동대문구 회기로 189", ("419-11-02853", "오를리(Orly)", "김지혜")),
   ("관악구 신림동1길 19-5", ("461-86-03598", "주식회사스테이모먼트", "유경민"))]

/-- Dictionary lookup `BUSINESS_MAP[location]` (`None` when
`location not in BUSINESS_MAP`). -/
def lookupBiz (location : String) : Option (String × String × String) :=
  (BUSINESS_MAP.find? (fun p => p.1 == location)).map (·.2)

/-! ## IEEE-754 binary64 model of `int(total / 1.1)` -/

/-- The binary64 value of the literal `1.1` is `CM * 2^-51`. -/
def CM : Nat := 2476979795053773

/-- Number of bits of `n` (`0` for `0`); fuel-based so that the kernel can
evaluate it (the recursion halves `n`, so `n` itself is enough fuel). -/
def bitlenAux : Nat → Nat → Nat
  | 0, _ => 0
  | fuel + 1, n => if n = 0 then 0 else bitlenAux fuel (n / 2) + 1

def bitlen (n : Nat) : Nat := bitlenAux n n

/-- Round the positive rational `p / q` to the nearest binary64 value
(round-to-nearest, ties to even), returned as a pair `(m, t)` denoting
`m * 2^t` with `2^52 ≤ m < 2^53` (or `(0, 0)` for `p = 0`). -/
def roundToFloat (p q : Nat) : Nat × Int :=
  if p = 0 then (0, 0) else
  let d : Int := (bitlen p : Int) - (bitlen q : Int)
  let sh : Int := 53 - d
  let P : Nat := if 0 ≤ sh then p * 2 ^ sh.toNat else p
  let Q : Nat := if 0 ≤ sh then q else q * 2 ^ (-sh).toNat
  let m0 : Nat := P / Q
  let r : Nat := P % Q
  if m0 < 2 ^ 53 then
    let m1 : Nat := if 2 * r > Q ∨ (2 * r = Q ∧ m0 % 2 = 1) then m0 + 1 else m0
    if m1 = 2 ^ 53 then (2 ^ 52, d - 52) else (m1, d - 53)
  else
    let m1 : Nat := m0 / 2
    let m2 : Nat := if m0 % 2 = 1 ∧ (0 < r ∨ m1 % 2 = 1) then m1 + 1 else m1
    if m2 = 2 ^ 53 then (2 ^ 52, d - 51) else (m2, d - 52)

/-- Model of the Python expression `int(g / 1.1)` for a non-negative integer
`g`: convert `g` to binary64 (nearest), divide by the binary64 `1.1`
(nearest-even), truncate toward zero. -/
def pySupply (g : Nat) : Nat :=
  let gf := roundToFloat g 1
  let e : Int := gf.2 + 51
  let p : Nat := if 0 ≤ e then gf.1 * 2 ^ e.toNat else gf.1
  let q : Nat := if 0 ≤ e then CM else CM * 2 ^ (-e).toNat
  let mt := roundToFloat p q
  if 0 ≤ mt.2 then mt.1 * 2 ^ mt.2.toNat else mt.1 / 2 ^ (-mt.2).toNat

/-- `tax_amount = grand_total - supply_amount` (Python integers are signed;
the difference is taken in `Int`). -/
def pyTax (g : Nat) : Int := (g : Int) - (pySupply g : Int)

/-! ## Raw records and aggregation (`aggregate_by_business`) -/

/-- One row of `laundry_records` as fetched by `get_monthly_data`: a date, a
location, and five nullable non-negative counts. -/
structure RawRecord where
  record_date : String
  location : String
  blanket : Option Nat
  mat : Option Nat
  pillow_cover : Option Nat
  towel : Option Nat
  body_towel : Option Nat
deriving DecidableEq, Repr

/-- A per-location quantity bucket; exactly the five catalog kinds, as
initialized by `aggregate_by_business`. -/
structure Bucket where
  blanket : Nat
  mat : Nat
  pillow_cover : Nat
  towel : Nat
  body_towel : Nat
deriving DecidableEq, Repr

def Bucket.get (b : Bucket) : Item → Nat
  | Item.blanket => b.blanket
  | Item.mat => b.mat
  | Item.pillow_cover => b.pillow_cover
  | Item.towel => b.towel
  | Item.body_towel => b.body_towel

/-- The zero bucket created on first sight of a location. -/
def zeroBucket : Bucket := ⟨0, 0, 0, 0, 0⟩

/-- The nullable count of one item kind in a record (`x or 0` in the
source turns a null into 0). -/
def RawRecord.count (r : RawRecord) : Item → Nat
  | Item.blanket => r.blanket.getD 0
  | Item.mat => r.mat.getD 0
  | Item.pillow_cover => r.pillow_cover.getD 0
  | Item.towel => r.towel.getD 0
  | Item.body_towel => r.body_towel.getD 0

/-- `loc_data[k] += (count or 0)` for all five kinds. -/
def addCounts (r : RawRecord) (b : Bucket) : Bucket :=
  { blanket := b.blanket + r.count Item.blanket
    mat := b.mat + r.count Item.mat
    pillow_cover := b.pillow_cover + r.count Item.pillow_cover
    towel := b.towel + r.count Item.towel
    body_towel := b.body_towel + r.count Item.body_towel }

/-- One extra line item (`extra_items` entries: name, qty, price, amount);
the aggregator only ever creates the empty list. -/
structure ExtraItem where
  name : String
  qty : Nat
  price : Nat
  amount : Nat
deriving DecidableEq, Repr

/-- The per-business value of `business_data`: display name, owner,
insertion-ordered location buckets, extra items. -/
structure Business where
  name : String
  owner : String
  locations : List (String × Bucket)
  extra_items : List ExtraItem
deriving DecidableEq, Repr

/-- Aggregation state: the insertion-ordered `business_data` dict plus the
diagnostics printed for unmapped locations. -/
structure AggState where
  data : List (String × Business)
  diags : List String
deriving DecidableEq, Repr

/-- Lookup in an insertion-ordered dict modelled as an association list. -/
def lookupA {β : Type} : String → List (String × β) → Option β
  | _, [] => none
  | k, (k', v) :: rest => if k' == k then some v else lookupA k rest

/-- `if k not in d: d[k] = init` followed by `d[k] = f d[k]`: insert at the
end when absent (Python dict insertion order), update in place otherwise. -/
def updateAssoc {β : Type} (k : String) (init : β) (f : β → β) :
    List (String × β) → List (String × β)
  | [] => [(k, f init)]
  | (k', v) :: rest =>
      if k' == k then (k', f v) :: rest else (k', v) :: updateAssoc k init f rest

/-- Processing of one row inside the `for row in rows` loop of
`aggregate_by_business`: unmapped locations print a diagnostic and are
skipped; otherwise the business entry and its location bucket are
found-or-created and the five counts are added into the bucket. -/
def aggStep (st : AggState) (r : RawRecord) : AggState :=
  match lookupBiz r.location with
  | none => { st with diags := st.diags ++ ["알 수 없는 숙소: " ++ r.location] }
  | some (reg_no, biz_name, owner) =>
      let init : Business := { name := biz_name, owner := owner, locations := [], extra_items := [] }
      let f : Business → Business := fun b =>
        { b with locations := updateAssoc r.location zeroBucket (addCounts r) b.locations }
      { st with data := updateAssoc reg_no init f st.data }

/-- `aggregate_by_business(rows)` with its printed diagnostics. -/
def aggregate_by_business (rows : List RawRecord) : AggState :=
  rows.foldl aggStep ⟨[], []⟩

/-- Quantity of item `k` recorded for `(reg_no, location)` in the aggregated
data (0 when the business or location is absent). -/
def qtyOf (data : List (String × Business)) (reg_no location : String) (k : Item) : Nat :=
  match lookupA reg_no data with
  | none => 0
  | some b =>
      match lookupA location b.locations with
      | none => 0
      | some bk => bk.get k

/-- The registration id a record's location resolves to, if any. -/
def bizOf (r : RawRecord) : Option String := (lookupBiz r.location).map (·.1)

/-! ## Statement builder (`generate_pdf`): numeric content -/

/-- The item lines of one location section: catalog order, only kinds with
positive quantity, each line carrying (name, qty, unit price, amount). -/
def sectionLines (b : Bucket) : List (String × Nat × Nat × Nat) :=
  ITEM_LIST.filterMap (fun k =>
    if 0 < b.get k then some (ITEM_NAMES k, b.get k, PRICES k, b.get k * PRICES k) else none)

/-- `loc_total`: accumulated over the five kinds, adding `qty * price` for
positive quantities only. -/
def sectionSubtotal (b : Bucket) : Nat :=
  ITEM_LIST.foldl (fun acc k => if 0 < b.get k then acc + b.get k * PRICES k else acc) 0

/-- `grand_total` of `generate_pdf`: location subtotals accumulated in
order, then the extra items' amounts. -/
def pdfGrandTotal (data : Business) : Nat :=
  data.extra_items.foldl (fun acc it => acc + it.amount)
    (data.locations.foldl (fun acc p => acc + sectionSubtotal p.2) 0)

/-- `supply_amount = int(grand_total / 1.1)` in `generate_pdf`. -/
def pdfSupply (data : Business) : Nat := pySupply (pdfGrandTotal data)

/-- `tax_amount = grand_total - supply_amount` in `generate_pdf`. -/
def pdfTax (data : Business) : Int := pyTax (pdfGrandTotal data)

/-! ## Filing sheet builder (`generate_excel`) -/

/-- `total` of one business in `generate_excel`: every catalog kind of every
location bucket times its unit price, then the extra items' amounts. -/
def excelTotal (data : Business) : Nat :=
  data.extra_items.foldl (fun acc it => acc + it.amount)
    (data.locations.foldl
      (fun acc p => ITEM_LIST.foldl (fun a k => a + p.2.get k * PRICES k) acc) 0)

/-- `reg_no.replace('-', '')`: removes every hyphen. -/
def stripDashes (s : String) : String := ⟨s.data.filter (fun c => c ≠ '-')⟩

/-- Last calendar day of a month, as `calendar.monthrange(year, month)[1]`
(proleptic Gregorian). -/
def monthLastDay (year month : Nat) : Nat :=
  if month = 2 then
    if year % 4 = 0 ∧ (year % 100 ≠ 0 ∨ year % 400 = 0) then 29 else 28
  else if month = 4 ∨ month = 6 ∨ month = 9 ∨ month = 11 then 30
  else 31

/-- Zero-padded two-digit rendering (`f"{n:02d}"` for `n < 100`). -/
def pad2 (n : Nat) : String := if n < 10 then "0" ++ toString n else toString n

/-- `write_date = f"{year}{month:02d}{last_day:02d}"`. -/
def writeDate (year month : Nat) : String :=
  toString year ++ pad2 month ++ pad2 (monthLastDay year month)

/-- One data row of the filing spreadsheet. -/
structure FilingRow where
  write_date : String
  reg_no : String
  name : String
  owner : String
  supply_amount : Nat
  tax_amount : Int
  grand_total : Nat
  label : String
deriving DecidableEq, Repr

/-- The data rows appended by `generate_excel`, one per business in dict
order. -/
def generate_excel_rows (business_data : List (String × Business)) (year month : Nat) :
    List FilingRow :=
  business_data.map (fun p =>
    { write_date := writeDate year month
      reg_no := stripDashes p.1
      name := p.2.name
      owner := p.2.owner
      supply_amount := pySupply (excelTotal p.2)
      tax_amount := pyTax (excelTotal p.2)
      grand_total := excelTotal p.2
      label := "세탁 서비스" })

/-! ## `main`: period resolution and notification total -/

/-- Period resolution in `main`: if the run date is the last day of its
month, the period is that month; otherwise the previous month (January
rolls back to December of the previous year); two positional command-line
arguments (year, month) override the default. -/
def resolvePeriod (ty tm td : Nat) (args : Option (Int × Int)) : Int × Int :=
  let base : Int × Int :=
    if td = monthLastDay ty tm then ((ty : Int), (tm : Int))
    else if tm = 1 then ((ty : Int) - 1, 12)
    else ((ty : Int), (tm : Int) - 1)
  match args with
  | some (y, m) => (y, m)
  | none => base

/-- `total_amount` computed in `main` over all businesses: all catalog
kinds of all location buckets times unit price, plus extra amounts. -/
def mainTotal (business_data : List (String × Business)) : Nat :=
  business_data.foldl
    (fun acc p =>
      p.2.extra_items.foldl (fun a it => a + it.amount)
        (p.2.locations.foldl
          (fun a q => ITEM_LIST.foldl (fun x k => x + q.2.get k * PRICES k) a) acc))
    0

/-- The matching predicate used to carve out the records feeding one
`(reg_no, location)` bucket. -/
def matches2 (reg loc : String) (r : RawRecord) : Bool :=
  r.location == loc && bizOf r == some reg

/-! ## Concrete sample inputs (used by witnesses and counterexamples) -/

/-- Sample record: 3 blankets at a location of 콥스. -/
def recA : RawRecord :=
  ⟨"2025-09-01", "광진구 능동로 165-1", some 3, none, none, none, none⟩

/-- Sample record: same location as `recA`, mixed nullable counts. -/
def recB : RawRecord :=
  ⟨"2025-09-02", "광진구 능동로 165-1", some 2, none, some 4, some 5, none⟩

/-- Sample record with a location that is not in `BUSINESS_MAP`. -/
def recU : RawRecord :=
  ⟨"2025-09-03", "마포구 없는길 1", some 7, some 7, some 7, some 7, some 7⟩

/-- A business whose grand total is 33 (one extra line item), exhibiting the
floating-point tax split. -/
def data33 : Business :=
  { name := "샘플", owner := "샘플대표", locations := [],
    extra_items := [⟨"기타", 1, 33, 33⟩] }

/-- The filing row produced for the aggregate of `[recA]` (total 19500,
split 17727 / 1773) in period 2025-09. -/
def frA : FilingRow :=
  { write_date := "20250930", reg_no := "7678702214", name := "주식회사 콥스",
    owner := "남택호", supply_amount := 17727, tax_amount := 1773,
    grand_total := 19500, label := "세탁 서비스" }

/-- The business aggregate produced for `[recA]`. -/
def bizA : Business :=
  { name := "주식회사 콥스", owner := "남택호",
    locations := [("광진구 능동로 165-1", ⟨3, 0, 0, 0, 0⟩)], extra_items := [] }

/-! ## Association-list and step lemmas -/

theorem lookupA_updateAssoc_self {β : Type} (k : String) (init : β) (f : β → β)
    (l : List (String × β)) :
    lookupA k (updateAssoc k init f l) = some (f ((lookupA k l).getD init)) := by
  induction l with
  | nil => simp [updateAssoc, lookupA]
  | cons p rest ih =>
    obtain ⟨k', v⟩ := p
    rcases eq_or_ne k' k with h | h
    · subst h
      simp [updateAssoc, lookupA]
    · simp [updateAssoc, lookupA, beq_iff_eq, h, ih]

theorem lookupA_updateAssoc_ne {β : Type} {k k2 : String} (h : k2 ≠ k) (init : β) (f : β → β)
    (l : List (String × β)) :
    lookupA k2 (updateAssoc k init f l) = lookupA k2 l := by
  induction l with
  | nil => simp [updateAssoc, lookupA, beq_iff_eq, Ne.symm h]
  | cons p rest ih =>
    obtain ⟨k', v⟩ := p
    rcases eq_or_ne k' k with h2 | h2
    · subst h2
      simp [updateAssoc, lookupA, beq_iff_eq, Ne.symm h]
    · simp only [updateAssoc, beq_iff_eq]
      rw [if_neg h2]
      simp only [lookupA, ih]

theorem Bucket.get_addCounts (r : RawRecord) (b : Bucket) (k : Item) :
    (addCounts r b).get k = b.get k + r.count k := by
  cases k <;> rfl

theorem Bucket.get_zero (k : Item) : zeroBucket.get k = 0 := by
  cases k <;> rfl

/-- Effect of one loop iteration on a single `(reg_no, location, item)`
quantity: unchanged unless the record resolves to exactly that business and
location, in which case its (null-defaulted) count is added. -/
theorem qtyOf_aggStep (st : AggState) (r : RawRecord) (reg loc : String) (k : Item) :
    qtyOf (aggStep st r).data reg loc k
      = qtyOf st.data reg loc k
        + (if r.location = loc ∧ bizOf r = some reg then r.count k else 0) := by
  rcases hb : lookupBiz r.location with _ | ⟨reg', nm, ow⟩
  · simp [aggStep, hb, bizOf]
  · rcases eq_or_ne reg reg' with hr | hr
    · subst hr
      simp only [aggStep, hb]
      by_cases hl : r.location = loc
      · subst hl
        rcases hd : lookupA reg st.data with _ | b
        · simp [qtyOf, hd, lookupA_updateAssoc_self, lookupA_updateAssoc_ne, lookupA,
            Bucket.get_addCounts, Bucket.get_zero, bizOf, hb]
        · rcases hloc : lookupA r.location b.locations with _ | bk
          · simp [qtyOf, hd, lookupA_updateAssoc_self, hloc,
              Bucket.get_addCounts, Bucket.get_zero, bizOf, hb]
          · simp [qtyOf, hd, lookupA_updateAssoc_self, hloc,
              Bucket.get_addCounts, bizOf, hb]
      · have hl2 : loc ≠ r.location := Ne.symm hl
        rcases hd : lookupA reg st.data with _ | b
        · simp [qtyOf, hd, lookupA_updateAssoc_self, lookupA_updateAssoc_ne hl2, lookupA, hl]
        · simp [qtyOf, hd, lookupA_updateAssoc_self, lookupA_updateAssoc_ne hl2, hl]
    · have : ¬(r.location = loc ∧ bizOf r = some reg) := by
        rintro ⟨-, h2⟩
        rw [bizOf, hb] at h2
        exact hr (Option.some.inj h2).symm
      simp [aggStep, hb, qtyOf, lookupA_updateAssoc_ne hr, this]

theorem matches2_iff (reg loc : String) (r : RawRecord) :
    matches2 reg loc r = true ↔ (r.location = loc ∧ bizOf r = some reg) := by
  simp [matches2, Bool.and_eq_true, beq_iff_eq]

/-- Accumulator-generalized summation invariant for the aggregation loop. -/
theorem qtyOf_foldl (rows : List RawRecord) (st : AggState) (reg loc : String) (k : Item) :
    qtyOf (rows.foldl aggStep st).data reg loc k
      = qtyOf st.data reg loc k
        + ((rows.filter (matches2 reg loc)).map (fun r => r.count k)).sum := by
  induction rows generalizing st with
  | nil => simp
  | cons r rows ih =>
    simp only [List.foldl_cons, List.filter_cons]
    rw [ih, qtyOf_aggStep]
    by_cases hc : r.location = loc ∧ bizOf r = some reg
    · rw [if_pos ((matches2_iff reg loc r).mpr hc), if_pos hc]
      simp only [List.map_cons, List.sum_cons]
      omega
    · rw [if_neg (fun h => hc ((matches2_iff reg loc r).mp h)), if_neg hc]
      omega

/-! ## Fold/summation helpers -/

theorem extrasFold_eq_sum (l : List ExtraItem) (a : Nat) :
    l.foldl (fun acc it => acc + it.amount) a = a + (l.map (fun it => it.amount)).sum := by
  induction l generalizing a with
  | nil => simp
  | cons it l ih =>
    simp only [List.foldl_cons, List.map_cons, List.sum_cons]
    rw [ih]
    omega

theorem locsFold_eq_sum (l : List (String × Bucket)) (a : Nat) :
    l.foldl (fun acc p => acc + sectionSubtotal p.2) a
      = a + (l.map (fun p => sectionSubtotal p.2)).sum := by
  induction l generalizing a with
  | nil => simp
  | cons p l ih =>
    simp only [List.foldl_cons, List.map_cons, List.sum_cons]
    rw [ih]
    omega

theorem add_if_pos (a q c : Nat) : (if 0 < q then a + q * c else a) = a + q * c := by
  cases q with
  | zero => simp
  | succ n => rw [if_pos (Nat.succ_pos n)]

/-- The per-location inner loop of `generate_excel` (every kind, no
positivity test) produces exactly the statement's location subtotal. -/
theorem itemsFold_eq_sectionSubtotal (b : Bucket) (a : Nat) :
    ITEM_LIST.foldl (fun x k => x + b.get k * PRICES k) a = a + sectionSubtotal b := by
  simp only [ITEM_LIST, sectionSubtotal, List.foldl_cons, List.foldl_nil]
  simp only [add_if_pos, Bucket.get, PRICES]
  omega

theorem locsFoldExcel_eq (l : List (String × Bucket)) (a : Nat) :
    l.foldl (fun acc p => ITEM_LIST.foldl (fun x k => x + p.2.get k * PRICES k) acc) a
      = l.foldl (fun acc p => acc + sectionSubtotal p.2) a := by
  induction l generalizing a with
  | nil => rfl
  | cons p l ih =>
    simp only [List.foldl_cons]
    rw [itemsFold_eq_sectionSubtotal, ih]

theorem excelTotal_eq_pdfGrandTotal (data : Business) :
    excelTotal data = pdfGrandTotal data := by
  unfold excelTotal pdfGrandTotal
  rw [locsFoldExcel_eq]

/-! ## Claims -/

/-- C1 (counterexample): at grand total 33 — reached e.g. through an extra
line item — both builders' `int(total / 1.1)` yields 29, while the exact
floor of `33 / 1.1` is 30: the claimed identity fails. -/
theorem C1_counterexample :
    pdfGrandTotal data33 = 33 ∧ pdfSupply data33 ≠ pdfGrandTotal data33 * 10 / 11
      ∧ excelTotal data33 = 33 ∧ pySupply (excelTotal data33) ≠ excelTotal data33 * 10 / 11 := by
  decide

/-- C1 (amended): the builders compute `supply_amount` by binary64
division and truncation; this agrees with the exact mathematical floor of
`grand_total / 1.1` for every grand total below 33, the first value (a
multiple of 11) where the floating-point quotient falls below the exact
one. -/
theorem C1_tax_split (g : Nat) (h : g < 33) : pySupply g = g * 10 / 11 := by
  have hall : ∀ g < 33, pySupply g = g * 10 / 11 := by decide
  exact hall g h

theorem C1_tax_split_witness : pySupply 22 = 22 * 10 / 11 :=
  C1_tax_split 22 (by norm_num)

/-- C2: the statement's grand total is the sum of the per-location
subtotals plus the sum of the extra-item amounts, and the tax split
reconciles exactly: `supply_amount + tax_amount = grand_total` in integer
arithmetic. -/
theorem C2_total_reconciliation (data : Business) :
    pdfGrandTotal data
        = (data.locations.map (fun p => sectionSubtotal p.2)).sum
          + (data.extra_items.map (fun it => it.amount)).sum
      ∧ (pdfSupply data : Int) + pdfTax data = (pdfGrandTotal data : Int) := by
  constructor
  · unfold pdfGrandTotal
    rw [extrasFold_eq_sum, locsFold_eq_sum]
    omega
  · unfold pdfSupply pdfTax pyTax
    omega

/-- C3: for any business aggregate, the filing sheet's independently
recomputed total (all catalog kinds of all buckets, plus extras) equals the
statement's grand total (positive-quantity lines only, plus extras), and so
do the derived supply and tax amounts. -/
theorem C3_filing_statement_consistency (data : Business) :
    excelTotal data = pdfGrandTotal data
      ∧ pySupply (excelTotal data) = pdfSupply data
      ∧ pyTax (excelTotal data) = pdfTax data := by
  refine ⟨excelTotal_eq_pdfGrandTotal data, ?_, ?_⟩
  · rw [excelTotal_eq_pdfGrandTotal]; rfl
  · rw [excelTotal_eq_pdfGrandTotal]; rfl

/-- C4: each `(registration id, location)` bucket quantity produced by
`aggregate_by_business` is the arithmetic sum of that item kind's
(null-defaulted) counts over exactly the records resolving to that
business and location. -/
theorem C4_bucket_sums (rows : List RawRecord) (reg loc : String) (k : Item) :
    qtyOf (aggregate_by_business rows).data reg loc k
      = ((rows.filter (matches2 reg loc)).map (fun r => r.count k)).sum := by
  have h := qtyOf_foldl rows ⟨[], []⟩ reg loc k
  simpa [aggregate_by_business, qtyOf, lookupA] using h

/-- C5: aggregated quantities are independent of the order of the input
records: any permutation of the rows yields identical per-item sums for
every business, location and kind. -/
theorem C5_order_independence {rows1 rows2 : List RawRecord} (h : rows1.Perm rows2)
    (reg loc : String) (k : Item) :
    qtyOf (aggregate_by_business rows1).data reg loc k
      = qtyOf (aggregate_by_business rows2).data reg loc k := by
  unfold aggregate_by_business
  rw [qtyOf_foldl, qtyOf_foldl]
  have hp : ((rows1.filter (matches2 reg loc)).map (fun r => r.count k)).Perm
      ((rows2.filter (matches2 reg loc)).map (fun r => r.count k)) :=
    (h.filter (matches2 reg loc)).map (fun r => r.count k)
  rw [hp.sum_eq]

theorem C5_order_independence_witness :
    qtyOf (aggregate_by_business [recA, recB]).data "767-87-02214" "광진구 능동로 165-1"
        Item.blanket
      = qtyOf (aggregate_by_business [recB, recA]).data "767-87-02214" "광진구 능동로 165-1"
        Item.blanket :=
  C5_order_independence (List.Perm.swap recB recA [])
    "767-87-02214" "광진구 능동로 165-1" Item.blanket

/-! ## Skipping and diagnostics lemmas (claim C6) -/

theorem aggStep_data_congr (st st' : AggState) (r : RawRecord) (h : st.data = st'.data) :
    (aggStep st r).data = (aggStep st' r).data := by
  rcases hb : lookupBiz r.location with _ | ⟨reg, nm, ow⟩ <;> simp [aggStep, hb, h]

theorem foldl_data_congr (rows : List RawRecord) :
    ∀ (st st' : AggState), st.data = st'.data →
      (rows.foldl aggStep st).data = (rows.foldl aggStep st').data := by
  induction rows with
  | nil => intro st st' h; simpa using h
  | cons r rows ih =>
    intro st st' h
    simp only [List.foldl_cons]
    exact ih _ _ (aggStep_data_congr st st' r h)

theorem foldl_diags_mono (rows : List RawRecord) :
    ∀ (st : AggState) (d : String), d ∈ st.diags → d ∈ (rows.foldl aggStep st).diags := by
  induction rows with
  | nil => intro st d h; simpa using h
  | cons r rows ih =>
    intro st d h
    simp only [List.foldl_cons]
    apply ih
    rcases hb : lookupBiz r.location with _ | ⟨reg, nm, ow⟩ <;> simp [aggStep, hb, h]

/-- C6: a record whose location is not in the directory is logged and
skipped: the aggregated mapping is exactly the one obtained from the input
with that record removed, and the diagnostic for the location is among the
printed messages (that the function is total in the embedding reflects that
no exception is raised). -/
theorem C6_unmapped_isolation (pre post : List RawRecord) (r : RawRecord)
    (h : lookupBiz r.location = none) :
    (aggregate_by_business (pre ++ r :: post)).data
        = (aggregate_by_business (pre ++ post)).data
      ∧ ("알 수 없는 숙소: " ++ r.location) ∈ (aggregate_by_business (pre ++ r :: post)).diags := by
  unfold aggregate_by_business
  rw [List.foldl_append, List.foldl_append, List.foldl_cons]
  constructor
  · apply foldl_data_congr
    simp [aggStep, h]
  · apply foldl_diags_mono
    simp [aggStep, h]

theorem C6_unmapped_isolation_witness :
    (aggregate_by_business ([recA] ++ recU :: [recB])).data
        = (aggregate_by_business ([recA] ++ [recB])).data
      ∧ ("알 수 없는 숙소: " ++ recU.location)
        ∈ (aggregate_by_business ([recA] ++ recU :: [recB])).diags :=
  C6_unmapped_isolation [recA] [recB] recU (by decide)

/-! ## Period resolution (claim C7) -/

/-- C7 (counterexample): run with no arguments on 2026-03-31 — the last day
of March — `main` selects March 2026 itself, not the preceding month
February. -/
theorem C7_counterexample :
    resolvePeriod 2026 3 31 none = ((2026 : Int), (3 : Int))
      ∧ resolvePeriod 2026 3 31 none ≠ ((2026 : Int), (2 : Int)) := by
  decide

/-- C7 (amended): with no positional arguments the period defaults to the
month preceding the run month (January rolling back to December of the
previous year) provided the run date is not the last day of its month (in
which case the run month itself is used); two positional arguments always
override the default. -/
theorem C7_period_resolution (ty tm td : Nat) (h : td ≠ monthLastDay ty tm) :
    resolvePeriod ty tm td none
        = (if tm = 1 then ((ty : Int) - 1, 12) else ((ty : Int), (tm : Int) - 1))
      ∧ ∀ args : Int × Int, resolvePeriod ty tm td (some args) = args := by
  constructor
  · simp [resolvePeriod, h]
  · intro args
    rcases args with ⟨y, m⟩
    rfl

theorem C7_period_resolution_witness :
    resolvePeriod 2026 10 12 none = ((2026 : Int), (9 : Int)) := by
  have h := (C7_period_resolution 2026 10 12 (by decide)).1
  simpa using h

/-! ## Key provenance lemmas (claims C8, C9) -/

theorem mem_updateAssoc {β : Type} (k : String) (init : β) (f : β → β) :
    ∀ (l : List (String × β)) (q : String × β), q ∈ updateAssoc k init f l → q.1 = k ∨ q ∈ l := by
  intro l
  induction l with
  | nil =>
    intro q h
    simp [updateAssoc] at h
    left
    rw [h]
  | cons p rest ih =>
    intro q h
    obtain ⟨k', v⟩ := p
    by_cases hk : k' = k
    · subst hk
      simp only [updateAssoc, beq_self_eq_true, if_true, List.mem_cons] at h
      rcases h with h | h
      · left; rw [h]
      · right; exact List.mem_cons_of_mem _ h
    · simp only [updateAssoc, beq_iff_eq, if_neg hk, List.mem_cons] at h
      rcases h with h | h
      · right; rw [h]; exact List.mem_cons_self _ _
      · rcases ih q h with h1 | h1
        · exact Or.inl h1
        · exact Or.inr (List.mem_cons_of_mem _ h1)

theorem lookupBiz_mem {loc : String} {v : String × String × String}
    (h : lookupBiz loc = some v) : ∃ e ∈ BUSINESS_MAP, e.2 = v := by
  unfold lookupBiz at h
  rcases hf : BUSINESS_MAP.find? (fun p => p.1 == loc) with _ | e
  · rw [hf] at h; cases h
  · rw [hf] at h
    simp only [Option.map_some'] at h
    exact ⟨e, List.mem_of_find?_eq_some hf, Option.some.inj h⟩

theorem mem_aggStep_data (st : AggState) (r : RawRecord) (q : String × Business)
    (h : q ∈ (aggStep st r).data) :
    q ∈ st.data ∨ ∃ e ∈ BUSINESS_MAP, q.1 = e.2.1 := by
  rcases hb : lookupBiz r.location with _ | ⟨reg, nm, ow⟩
  · simp only [aggStep, hb] at h
    exact Or.inl h
  · simp only [aggStep, hb] at h
    rcases mem_updateAssoc _ _ _ st.data q h with h1 | h1
    · right
      rcases lookupBiz_mem hb with ⟨e, he, hev⟩
      exact ⟨e, he, by rw [h1, hev]⟩
    · exact Or.inl h1

theorem mem_agg_data (rows : List RawRecord) :
    ∀ (st : AggState) (q : String × Business), q ∈ (rows.foldl aggStep st).data →
      q ∈ st.data ∨ ∃ e ∈ BUSINESS_MAP, q.1 = e.2.1 := by
  induction rows with
  | nil => intro st q h; exact Or.inl (by simpa using h)
  | cons r rows ih =>
    intro st q h
    simp only [List.foldl_cons] at h
    rcases ih _ q h with h1 | h1
    · exact mem_aggStep_data st r q h1
    · exact Or.inr h1

/-- Every key of the aggregated mapping is one of the three registration
ids occurring in the directory. -/
theorem agg_keys (rows : List RawRecord) (q : String × Business)
    (h : q ∈ (aggregate_by_business rows).data) :
    q.1 = "767-87-02214" ∨ q.1 = "419-11-02853" ∨ q.1 = "461-86-03598" := by
  rcases mem_agg_data rows ⟨[], []⟩ q h with h1 | ⟨e, he, hq⟩
  · simp at h1
  · have hall : ∀ e ∈ BUSINESS_MAP,
        e.2.1 = "767-87-02214" ∨ e.2.1 = "419-11-02853" ∨ e.2.1 = "461-86-03598" := by
      decide
    rw [hq]
    exact hall e he

/-- C8: every registration id emitted into a filing row is the hyphen-free
form of the original, which consists exactly of the original's digits in
order. -/
theorem C8_regno_digits_only (rows : List RawRecord) (year month : Nat) (fr : FilingRow)
    (h : fr ∈ generate_excel_rows (aggregate_by_business rows).data year month) :
    ∃ q ∈ (aggregate_by_business rows).data,
      fr.reg_no = stripDashes q.1
        ∧ fr.reg_no = String.mk (q.1.data.filter Char.isDigit) := by
  rcases List.mem_map.mp h with ⟨q, hq, hfr⟩
  subst hfr
  refine ⟨q, hq, rfl, ?_⟩
  show stripDashes q.1 = String.mk (q.1.data.filter Char.isDigit)
  rcases agg_keys rows q hq with h1 | h1 | h1 <;> rw [h1] <;> decide

theorem C8_regno_digits_only_witness :
    ∃ q ∈ (aggregate_by_business [recA]).data,
      frA.reg_no = stripDashes q.1
        ∧ frA.reg_no = String.mk (q.1.data.filter Char.isDigit) :=
  C8_regno_digits_only [recA] 2025 9 frA (by decide)

/-! ## First-seen provenance of business entries (claim C9) -/

theorem lookupA_foldl_preserve (rows : List RawRecord) :
    ∀ (st : AggState) (reg : String) (b : Business),
      lookupA reg st.data = some b →
      ∃ b', lookupA reg (rows.foldl aggStep st).data = some b'
        ∧ b'.name = b.name ∧ b'.owner = b.owner ∧ b'.extra_items = b.extra_items := by
  induction rows with
  | nil => intro st reg b h; exact ⟨b, by simpa using h, rfl, rfl, rfl⟩
  | cons r rows ih =>
    intro st reg b h
    simp only [List.foldl_cons]
    have step : ∃ b2, lookupA reg (aggStep st r).data = some b2
        ∧ b2.name = b.name ∧ b2.owner = b.owner ∧ b2.extra_items = b.extra_items := by
      rcases hb : lookupBiz r.location with _ | ⟨reg', nm, ow⟩
      · exact ⟨b, by simp [aggStep, hb, h], rfl, rfl, rfl⟩
      · rcases eq_or_ne reg reg' with he | he
        · subst he
          refine ⟨{ b with
              locations := updateAssoc r.location zeroBucket (addCounts r) b.locations },
            ?_, rfl, rfl, rfl⟩
          simp [aggStep, hb, lookupA_updateAssoc_self, h]
        · exact ⟨b, by simp [aggStep, hb, lookupA_updateAssoc_ne he, h], rfl, rfl, rfl⟩
    rcases step with ⟨b2, h2, hn, ho, hx⟩
    rcases ih _ reg b2 h2 with ⟨b', h3, hn2, ho2, hx2⟩
    exact ⟨b', h3, hn2.trans hn, ho2.trans ho, hx2.trans hx⟩

theorem agg_first_seen_aux (rows : List RawRecord) :
    ∀ (st : AggState) (reg : String) (b : Business),
      lookupA reg st.data = none →
      lookupA reg (rows.foldl aggStep st).data = some b →
      ∃ r, rows.find? (fun r => bizOf r == some reg) = some r
        ∧ lookupBiz r.location = some (reg, b.name, b.owner) ∧ b.extra_items = [] := by
  induction rows with
  | nil =>
    intro st reg b h0 h
    rw [List.foldl_nil, h0] at h
    cases h
  | cons r rows ih =>
    intro st reg b h0 h
    simp only [List.foldl_cons] at h
    rcases hb : lookupBiz r.location with _ | ⟨reg', nm, ow⟩
    · have hpred : ¬((bizOf r == some reg) = true) := by simp [bizOf, hb]
      rw [@List.find?_cons_of_neg _ (fun r => bizOf r == some reg) r rows hpred]
      apply ih (aggStep st r) reg b ?_ h
      have hd : (aggStep st r).data = st.data := by simp [aggStep, hb]
      rw [hd]
      exact h0
    · rcases eq_or_ne reg' reg with he | he
      · subst he
        have hpred : (fun r => bizOf r == some reg') r = true := by simp [bizOf, hb]
        rw [@List.find?_cons_of_pos _ (fun r => bizOf r == some reg') r rows hpred]
        have hstep : lookupA reg' (aggStep st r).data
            = some ⟨nm, ow, [(r.location, addCounts r zeroBucket)], []⟩ := by
          simp [aggStep, hb, lookupA_updateAssoc_self, h0, updateAssoc]
        rcases lookupA_foldl_preserve rows (aggStep st r) reg' _ hstep with ⟨b', h3, hn, ho, hx⟩
        have hbb : b' = b := Option.some.inj (h3.symm.trans h)
        subst hbb
        refine ⟨r, rfl, ?_, ?_⟩
        · rw [hb, hn, ho]
        · exact hx
      · have hpred : ¬((bizOf r == some reg) = true) := by
          simp only [bizOf, hb, Option.map_some', beq_iff_eq, Option.some.injEq]
          exact he
        rw [@List.find?_cons_of_neg _ (fun r => bizOf r == some reg) r rows hpred]
        apply ih (aggStep st r) reg b ?_ h
        have hd : lookupA reg (aggStep st r).data = lookupA reg st.data := by
          simp [aggStep, hb, lookupA_updateAssoc_ne (Ne.symm he)]
        rw [hd]
        exact h0

/-- C9: a business entry exists in the aggregate exactly with the display
name and owner drawn from the directory entry of the first record that
resolves to that business, and its extra-items list is the (empty) list
created at initialization.  (Each location bucket is by construction a
total map of exactly the five catalog kinds to natural-number
quantities.) -/
theorem C9_aggregate_invariant (rows : List RawRecord) (reg : String) (b : Business)
    (h : lookupA reg (aggregate_by_business rows).data = some b) :
    (∃ r, rows.find? (fun r => bizOf r == some reg) = some r
        ∧ lookupBiz r.location = some (reg, b.name, b.owner))
      ∧ b.extra_items = [] := by
  rcases agg_first_seen_aux rows ⟨[], []⟩ reg b rfl h with ⟨r, h1, h2, h3⟩
  exact ⟨⟨r, h1, h2⟩, h3⟩

theorem C9_aggregate_invariant_witness :
    (∃ r, [recA].find? (fun r => bizOf r == some "767-87-02214") = some r
        ∧ lookupBiz r.location = some ("767-87-02214", bizA.name, bizA.owner))
      ∧ bizA.extra_items = [] :=
  C9_aggregate_invariant [recA] "767-87-02214" bizA (by decide)

/-! ## Notification total (claim C10) -/

theorem mainFold_body (p : String × Business) (a : Nat) :
    p.2.extra_items.foldl (fun x it => x + it.amount)
        (p.2.locations.foldl
          (fun x q => ITEM_LIST.foldl (fun y k => y + q.2.get k * PRICES k) x) a)
      = a + excelTotal p.2 := by
  rw [locsFoldExcel_eq, locsFold_eq_sum, extrasFold_eq_sum]
  unfold excelTotal
  rw [locsFoldExcel_eq, locsFold_eq_sum, extrasFold_eq_sum]
  omega

theorem mainTotal_foldl (business_data : List (String × Business)) : ∀ a : Nat,
    business_data.foldl
        (fun acc p =>
          p.2.extra_items.foldl (fun x it => x + it.amount)
            (p.2.locations.foldl
              (fun x q => ITEM_LIST.foldl (fun y k => y + q.2.get k * PRICES k) x) acc)) a
      = a + (business_data.map (fun p => excelTotal p.2)).sum := by
  induction business_data with
  | nil => intro a; simp
  | cons p bd ih =>
    intro a
    simp only [List.foldl_cons, List.map_cons, List.sum_cons]
    rw [mainFold_body, ih]
    omega

/-- C10: the total amount reported in the notification body equals the sum
of the grand totals written into the filing spreadsheet rows for the same
aggregates. -/
theorem C10_notification_total (business_data : List (String × Business)) (year month : Nat) :
    mainTotal business_data
      = ((generate_excel_rows business_data year month).map (fun fr => fr.grand_total)).sum := by
  unfold mainTotal
  rw [mainTotal_foldl]
  simp [generate_excel_rows, List.map_map, Function.comp_def]

end Laundry
